import Mathlib

/-!
Shallow embedding of the raspberry-arrosage irrigation controller core
(mode state machine, sequence engine, pause/resume controller, schedule
trigger and poll loop), translated from the Python sources:
`data/mode.py`, `data/status.py`, `loop/sequence.py`, `loop/pause.py`,
`loop/main.py`, `commands/resume.py`, `commands/reset.py`,
`commands/manual.py`, `hardware/relay/relays.py`.

Persisted documents are JSON-like values (`Val`); the shared store holds
the three documents `mode`, `status`, `settings`.  Redis reads/writes and
the GPIO driver are modelled as always succeeding; every failure path
that the claims exercise is a document-shape failure, which the embedding
reproduces faithfully (including Python exceptions that are caught by a
surrounding `try` and turned into a `False`/`None` result, and the one
place in `loop/main.py` where an exception escapes to the top level).
-/

namespace Arrosage

/-- JSON-like Python value as stored in redis and handled by the code.
Python `bool` is a subtype of `int` (`True == 1`), which `asNum` models. -/
inductive Val where
  | vnone
  | vint (n : Int)
  | vbool (b : Bool)
  | vstr (s : String)
  | vlist (xs : List Val)
  | vdict (fs : List (String × Val))

/-- Python dict lookup `d[k]` / `k in d`, returning the stored value. -/
def dget (fs : List (String × Val)) (k : String) : Option Val :=
  (fs.find? (fun p => p.1 == k)).map (fun p => p.2)

/-- Python dict assignment `d[k] = v`: replace in place, else append. -/
def dset (fs : List (String × Val)) (k : String) (v : Val) : List (String × Val) :=
  if (fs.find? (fun p => p.1 == k)).isSome then
    fs.map (fun p => if p.1 == k then (k, v) else p)
  else fs ++ [(k, v)]

/-- Python `d.get(k)` followed by an `is None` test: a missing key and a
stored JSON `null` are both `None`. -/
def pyGet (fs : List (String × Val)) (k : String) : Option Val :=
  match dget fs k with
  | some .vnone => none
  | some v => some v
  | none => none

/-- Python truthiness of a value. -/
def truthy : Val → Bool
  | .vnone => false
  | .vint n => n != 0
  | .vbool b => b
  | .vstr s => !(s == "")
  | .vlist xs => !xs.isEmpty
  | .vdict fs => !fs.isEmpty

/-- Numeric view: `int` values, and `bool` which Python treats as 0/1.
Anything else raises `TypeError` in arithmetic/comparisons. -/
def Val.asNum : Val → Option Int
  | .vint n => some n
  | .vbool b => some (if b then 1 else 0)
  | _ => none

/-- Python `len(v)` for sized values; `none` models a `TypeError`. -/
def pyLen : Val → Option Nat
  | .vlist xs => some xs.length
  | .vstr s => some s.length
  | .vdict fs => some fs.length
  | _ => none

/-- Python subscript `v[i]` for a non-negative index; `none` models an
`IndexError`/`KeyError`/`TypeError` (JSON dicts have string keys only). -/
def pyIndex : Val → Nat → Option Val
  | .vlist xs, k => xs.get? k
  | .vstr s, k => (s.toList.get? k).map (fun ch => .vstr (String.mk [ch]))
  | _, _ => none

/-- Python `v == s` against a string `s`: only equal strings compare equal. -/
def valEqStr (v : Val) (s : String) : Bool :=
  match v with
  | .vstr t => t == s
  | _ => false

/-- The shared redis store: the three persisted documents. -/
structure Store where
  mode : Option Val
  status : Option Val
  settings : Option Val

/-- Full system state: store plus the eight relay outputs
(`true` = energized). -/
structure Sys where
  store : Store
  relays : List Bool

/-- `hardware/relay/relays.py` `close_all_relays`. -/
def closeAllR : List Bool := List.replicate 8 false

/-- `hardware/relay/relays.py` `open_relay`. -/
def openR (rs : List Bool) (i : Nat) : List Bool := rs.set i true

def MODE_MANUAL : String := "manual"
def MODE_AUTO : String := "auto"
def MODE_SEMI_AUTO : String := "semi_auto"
def MODE_PAUSE : String := "pause"

def VALID_MODES : List String := [ MODE_MANUAL, MODE_AUTO, MODE_SEMI_AUTO, MODE_PAUSE]

/-- `data/mode.py` `get_mode`: `None` unless the mode document is a dict
whose `current` field holds one of the four valid mode strings
(a `.get` on a non-dict raises, caught by the function's `except`). -/
def get_mode (st : Store) : Option String :=
  match st.mode with
  | none => none
  | some (.vdict fs) =>
      match dget fs "current" with
      | some (.vstr s) => if VALID_MODES.contains s then some s else none
      | _ => none
  | some _ => none

/-- `data/mode.py` `set_mode`: validate, overwrite the whole mode document
with `{current: new_mode}` (dropping any other fields), then verify by
re-reading. -/
def set_mode (st : Store) (m : String) : Store × Bool :=
  if VALID_MODES.contains m then
    let st2 : Store := { st with mode := some (.vdict [("current", .vstr m)]) }
    if get_mode st2 = some m then (st2, true) else (st2, false)
  else (st, false)

/-- `data/status.py` `clear_status`. -/
def clear_status (st : Store) : Store × Bool :=
  ({ st with status := none }, true)

/-- `opened_relay` validation in `data/status.py` `get_status`:
`isinstance(v, int)` (which accepts Python bools) and `0 <= v <= 7`. -/
def valid_relay_val (v : Val) : Bool :=
  match v.asNum with
  | some n => decide (0 ≤ n ∧ n ≤ 7)
  | none => false

/-- `opened_at` validation in `data/status.py` `get_status`:
a non-negative number. -/
def valid_ts_val (v : Val) : Bool :=
  match v.asNum with
  | some n => decide (0 ≤ n)
  | none => false

/-- `get_status` field check: `opened_relay`, when present, must be valid. -/
def relayFieldOK (fs : List (String × Val)) : Bool :=
  match dget fs "opened_relay" with
  | some v => valid_relay_val v
  | none => true

/-- `get_status` field check: `opened_at`, when present, must be valid. -/
def atFieldOK (fs : List (String × Val)) : Bool :=
  match dget fs "opened_at" with
  | some v => valid_ts_val v
  | none => true

/-- `data/status.py` `get_status`: `None` if absent or not a dict; if
either of `opened_relay`/`opened_at` is present, both present ones must
validate, otherwise `None`; else the raw dict is returned. -/
def get_status (st : Store) : Option (List (String × Val)) :=
  match st.status with
  | none => none
  | some (.vdict fs) =>
      if (dget fs "opened_relay").isSome || (dget fs "opened_at").isSome then
        if relayFieldOK fs && atFieldOK fs then some fs else none
      else some fs
  | some _ => none

/-- `data/status.py` `set_open_relay`: validate the relay index, build
`{opened_relay, opened_at}` and add `should_close_at = now + duration`
only when `duration > 0`; a non-numeric duration raises `TypeError` at
the comparison, caught by the function (`false`, nothing written). -/
def set_open_relay (st : Store) (relay : Int) (duration : Val) (now : Int) : Store × Bool :=
  if relay < 0 ∨ 7 < relay then (st, false)
  else
    match duration.asNum with
    | some d =>
        let doc : List (String × Val) :=
          if 0 < d then
            [("opened_relay", .vint relay), ("opened_at", .vint now),
             ("should_close_at", .vint (now + d))]
          else
            [("opened_relay", .vint relay), ("opened_at", .vint now)]
        ({ st with status := some (.vdict doc) }, true)
    | none => (st, false)

/-- `loop/sequence.py` `start_step`: validate the index, close all relays,
open relay `relay`, then read `settings['sequence'][relay]` and write the
status via `set_open_relay`.  Any exception past the index check (missing
settings, missing or unindexable `sequence`) is caught and yields `False`
with the relays already switched. -/
def start_step (sys : Sys) (relay : Int) (now : Int) : Sys × Bool :=
  if relay < 0 ∨ 7 < relay then (sys, false)
  else
    let sys1 : Sys := { sys with relays := openR closeAllR relay.toNat }
    match sys1.store.settings with
    | none => (sys1, false)
    | some (.vdict fs) =>
        match dget fs "sequence" with
        | none => (sys1, false)
        | some seqv =>
            match pyIndex seqv relay.toNat with
            | none => (sys1, false)
            | some duration =>
                let p := set_open_relay sys1.store relay duration now
                ({ sys1 with store := p.1 }, p.2)
    | some _ => (sys1, false)

/-- `loop/sequence.py` `start_sequence`: clear the status, then
`start_step(0)`. -/
def start_sequence (sys : Sys) (now : Int) : Sys × Bool :=
  let p := clear_status sys.store
  let sys1 : Sys := { sys with store := p.1 }
  start_step sys1 0 now

/-- `loop/sequence.py` `is_current_step_finished`: `False` when the status
is absent, when `opened_relay`/`opened_at` is missing, when
`status['should_close_at']` raises `KeyError`, when settings are missing
or lack an indexable `sequence` covering `opened_relay`, or when the
deadline comparison raises; otherwise `now >= should_close_at`. -/
def is_current_step_finished (st : Store) (now : Int) : Bool :=
  match get_status st with
  | none => false
  | some status =>
      if !((dget status "opened_relay").isSome && (dget status "opened_at").isSome) then
        false
      else
        match dget status "should_close_at" with
        | none => false
        | some scv =>
            match dget status "opened_relay" with
            | none => false
            | some rv =>
                match st.settings with
                | none => false
                | some (.vdict fs) =>
                    match dget fs "sequence" with
                    | none => false
                    | some seqv =>
                        match rv.asNum, pyLen seqv with
                        | some r, some len =>
                            if r < 0 ∨ (len : Int) ≤ r then false
                            else
                              match pyIndex seqv r.toNat with
                              | none => false
                              | some _ =>
                                  match scv.asNum with
                                  | some sc => decide (sc ≤ now)
                                  | none => false
                        | _, _ => false
                | some _ => false

/-- `loop/pause.py` `pause`: no-op when already paused; otherwise plain
`set_mode(PAUSE)` (which overwrites the whole mode document with
`{current: "pause"}`), then close all relays. -/
def pause (sys : Sys) : Sys × Bool :=
  if get_mode sys.store = some MODE_PAUSE then (sys, true)
  else
    let p := set_mode sys.store MODE_PAUSE
    if p.2 then ({ store := p.1, relays := closeAllR }, true)
    else ({ sys with store := p.1 }, false)

/-- `commands/reset.py` `reset`: close all relays, then clear the status. -/
def reset (sys : Sys) : Sys × Bool :=
  let sys1 : Sys := { sys with relays := closeAllR }
  let p := clear_status sys1.store
  ({ sys1 with store := p.1 }, true)

/-- `commands/manual.py` `manual`: close all relays, clear the status,
set the mode to manual, and return the string `"manual"` unconditionally. -/
def manual (sys : Sys) : Sys × String :=
  let sys1 : Sys := { sys with relays := closeAllR }
  let p := clear_status sys1.store
  let sys2 : Sys := { sys1 with store := p.1 }
  let q := set_mode sys2.store MODE_MANUAL
  ({ sys2 with store := q.1 }, MODE_MANUAL)

/-- Final stretch of `commands/resume.py` once `paused_at`,
`previous_mode` and a valid `opened_relay` have been extracted and the
deadline (if any) shifted: persist the status document, re-open the
relay, and `set_mode(previous_mode)` (which fails without raising when
`previous_mode` is not a valid mode string). -/
def finishResume (sys : Sys) (statusDoc : List (String × Val)) (r : Int) (pmv : Val) :
    Sys × Bool :=
  let sys1 : Sys := { sys with store := { sys.store with status := some (.vdict statusDoc) } }
  let sys2 : Sys := { sys1 with relays := openR sys1.relays r.toNat }
  match pmv with
  | .vstr pm =>
      let q := set_mode sys2.store pm
      ({ sys2 with store := q.1 }, q.2)
  | _ => (sys2, false)

/-- `commands/resume.py` `resume`: requires the raw mode document to hold
non-null `paused_at` and `previous_mode`; computes `delta = now - paused_at`;
requires `get_status` to succeed with a non-null `opened_relay` in `[0,7]`;
shifts `should_close_at` by `delta` when present; then persists the status,
re-opens the relay and restores the previous mode.  Every exception
(e.g. non-numeric arithmetic) is caught and yields `False`. -/
def resume (sys : Sys) (now : Int) : Sys × Bool :=
  match sys.store.mode with
  | none => (sys, false)
  | some (.vdict mfs) =>
      match pyGet mfs "paused_at" with
      | none => (sys, false)
      | some pav =>
          match pyGet mfs "previous_mode" with
          | none => (sys, false)
          | some pmv =>
              match pav.asNum with
              | none => (sys, false)
              | some p =>
                  let delta := now - p
                  match get_status sys.store with
                  | none => (sys, false)
                  | some status =>
                      match pyGet status "opened_relay" with
                      | none => (sys, false)
                      | some rv =>
                          match rv.asNum with
                          | none => (sys, false)
                          | some r =>
                              if r < 0 ∨ 7 < r then (sys, false)
                              else
                                match pyGet status "should_close_at" with
                                | some scv =>
                                    match scv.asNum with
                                    | none => (sys, false)
                                    | some sc =>
                                        finishResume sys
                                          (dset status "should_close_at" (.vint (sc + delta)))
                                          r pmv
                                | none => finishResume sys status r pmv
  | some _ => (sys, false)

/-- What a poll-loop tick observably invoked: an advance to
`start_step i`, or a schedule-triggered `start_sequence`. -/
inductive Action where
  | advance (i : Int)
  | seqStart

/-- Result of one tick of `loop/main.py`: either the next state together
with the action taken, or an exception escaping the loop body (there is
no per-tick handler; the only `try` wraps the whole `while`). -/
inductive TickResult where
  | ok (s : Sys) (a : Option Action)
  | err

/-- The wall clock as read inside one tick: `int(time.time())`,
`datetime.now().weekday()` and `datetime.now().strftime("%H:%M")`. -/
structure Clock where
  now : Int
  weekday : Nat
  hhmm : String

/-- One iteration of the `while True` body of `loop/main.py` `main`:
read the mode; in auto/semi-auto, either advance the running sequence
(`start_step(opened_relay + 1)` when the step is finished and
`opened_relay < 7`) or evaluate the schedule trigger.  The
`settings.get(...)` calls in the trigger branch are unguarded: a
non-dict settings document (or a non-sized/non-indexable `schedule`)
raises an exception that escapes the loop body (`TickResult.err`). -/
def tickE (sys : Sys) (c : Clock) : TickResult :=
  let gm := get_mode sys.store
  if gm = some MODE_AUTO ∨ gm = some MODE_SEMI_AUTO then
    match get_status sys.store with
    | some status =>
        if is_current_step_finished sys.store c.now then
          match pyGet status "opened_relay" with
          | some rv =>
              match rv.asNum with
              | some r =>
                  if r < 7 then
                    .ok (start_step sys (r + 1) c.now).1 (some (.advance (r + 1)))
                  else .ok sys none
              | none => .err
          | none => .ok sys none
        else .ok sys none
    | none =>
        match sys.store.settings with
        | none => .ok sys none
        | some (.vdict fs) =>
            let schedule := (dget fs "schedule").getD (.vlist [])
            let start_at := (dget fs "start_at").getD (.vstr "")
            if truthy schedule && truthy start_at then
              match pyLen schedule with
              | none => .err
              | some len =>
                  if c.weekday < len then
                    match pyIndex schedule c.weekday with
                    | none => .err
                    | some dv =>
                        if truthy dv then
                          if valEqStr start_at c.hhmm then
                            .ok (start_sequence sys c.now).1 (some .seqStart)
                          else .ok sys none
                        else .ok sys none
                  else .ok sys none
            else .ok sys none
        | some _ => .err
  else .ok sys none

/-- Running the poll loop over a list of tick clocks: `none` when an
escaping exception reached the top-level handler (`sys.exit(1)`),
terminating the loop. -/
def runTicks (sys : Sys) : List Clock → Option Sys
  | [] => some sys
  | c :: cs =>
      match tickE sys c with
      | .err => none
      | .ok sys1 _ => runTicks sys1 cs

/-- Number of energized actuators. -/
def countOpen (rs : List Bool) : Nat := rs.count true

/-- The Status-document invariant of the spec: an absent status document
means no actuator is energized, and at most one actuator is energized
whenever the document exists. -/
def Inv (sys : Sys) : Prop :=
  (sys.store.status = none → countOpen sys.relays = 0) ∧
  (sys.store.status ≠ none → countOpen sys.relays ≤ 1)

/-! Helper lemmas about the embedded operations. -/

theorem set_mode_valid (st : Store) (m : String) (hm : m ∈ VALID_MODES) :
    set_mode st m = ({ st with mode := some (.vdict [("current", .vstr m)]) }, true) := by
  simp only [VALID_MODES, MODE_MANUAL, MODE_AUTO, MODE_SEMI_AUTO, MODE_PAUSE,
    List.mem_cons, List.not_mem_nil, or_false] at hm
  rcases hm with h | h | h | h <;> subst h <;> rfl

theorem set_mode_preserves_status (st : Store) (m : String) :
    (set_mode st m).1.status = st.status := by
  unfold set_mode
  split
  · dsimp only
    split <;> rfl
  · rfl

theorem set_mode_preserves_settings (st : Store) (m : String) :
    (set_mode st m).1.settings = st.settings := by
  unfold set_mode
  split
  · dsimp only
    split <;> rfl
  · rfl

theorem countOpen_closeAll : countOpen closeAllR = 0 := rfl

theorem countOpen_openR_closeAll (k : Nat) (hk : k < 8) :
    countOpen (openR closeAllR k) = 1 := by
  interval_cases k <;> rfl

theorem countOpen_set_true_le (rs : List Bool) (k : Nat) :
    countOpen (rs.set k true) ≤ countOpen rs + 1 := by
  induction rs generalizing k with
  | nil => simp [countOpen]
  | cons b t ih =>
      cases k with
      | zero => cases b <;> simp [countOpen, List.set, List.count_cons]
      | succ k =>
          have := ih k
          cases b <;> simp [countOpen, List.set, List.count_cons] at * <;> omega

/-- If `get_status` succeeds, the stored slot is that dict. -/
theorem get_status_slot (st : Store) (fs : List (String × Val))
    (h : get_status st = some fs) : st.status = some (.vdict fs) := by
  cases hs : st.status with
  | none => simp only [get_status, hs] at h; exact Option.noConfusion h
  | some v =>
      cases v with
      | vdict gs =>
          simp only [get_status, hs] at h
          split at h
          · split at h
            · injection h with h2
              rw [h2]
            · simp at h
          · injection h with h2
            rw [h2]
      | vnone => simp only [get_status, hs] at h; exact Option.noConfusion h
      | vint n => simp only [get_status, hs] at h; exact Option.noConfusion h
      | vbool b => simp only [get_status, hs] at h; exact Option.noConfusion h
      | vstr s => simp only [get_status, hs] at h; exact Option.noConfusion h
      | vlist xs => simp only [get_status, hs] at h; exact Option.noConfusion h

/-- If `get_status` succeeds and `opened_relay` is present, it is valid. -/
theorem get_status_relay_valid (st : Store) (fs : List (String × Val)) (v : Val)
    (h : get_status st = some fs) (hv : dget fs "opened_relay" = some v) :
    valid_relay_val v = true := by
  cases hs : st.status with
  | none => simp only [get_status, hs] at h; exact Option.noConfusion h
  | some w =>
      cases w with
      | vdict gs =>
          simp only [get_status, hs] at h
          split at h
          · split at h
            · injection h with h2
              subst h2
              rename_i hok
              rw [Bool.and_eq_true] at hok
              have hrel := hok.1
              unfold relayFieldOK at hrel
              rw [hv] at hrel
              exact hrel
            · simp at h
          · injection h with h2
            subst h2
            rename_i hpres
            exfalso
            apply hpres
            rw [hv]
            simp
      | vnone => simp only [get_status, hs] at h; exact Option.noConfusion h
      | vint n => simp only [get_status, hs] at h; exact Option.noConfusion h
      | vbool b => simp only [get_status, hs] at h; exact Option.noConfusion h
      | vstr s => simp only [get_status, hs] at h; exact Option.noConfusion h
      | vlist xs => simp only [get_status, hs] at h; exact Option.noConfusion h

/-- `pyGet` returning a value implies `dget` returns that same value. -/
theorem pyGet_eq_dget (fs : List (String × Val)) (k : String) (v : Val)
    (h : pyGet fs k = some v) : dget fs k = some v := by
  unfold pyGet at h
  cases hd : dget fs k with
  | none => rw [hd] at h; nomatch h
  | some w =>
      rw [hd] at h
      cases w with
      | vnone => nomatch h
      | vint n => cases h; rfl
      | vbool b => cases h; rfl
      | vstr s => cases h; rfl
      | vlist xs => cases h; rfl
      | vdict gs => cases h; rfl

/-- A valid relay value has a numeric view in `[0,7]`. -/
theorem valid_relay_num (v : Val) (h : valid_relay_val v = true) :
    ∃ n, v.asNum = some n ∧ 0 ≤ n ∧ n ≤ 7 := by
  unfold valid_relay_val at h
  cases hn : v.asNum with
  | none => rw [hn] at h; nomatch h
  | some n =>
      rw [hn] at h
      exact ⟨n, rfl, of_decide_eq_true h⟩

/-- `start_step` never touches the settings document. -/
theorem start_step_preserves_settings (sys : Sys) (i : Int) (now : Int) :
    (start_step sys i now).1.store.settings = sys.store.settings := by
  unfold start_step
  split
  · rfl
  · dsimp only
    split
    · rfl
    · split
      · rfl
      · split
        · rfl
        · unfold set_open_relay
          dsimp only
          split
          · rfl
          · split <;> rfl
    · rfl

/-- Past the index guard, `start_step` leaves the relays in the
close-all-then-open-one state. -/
theorem start_step_relays (sys : Sys) (i : Int) (now : Int)
    (h : ¬(i < 0 ∨ 7 < i)) :
    (start_step sys i now).1.relays = openR closeAllR i.toNat := by
  unfold start_step
  split
  · exact absurd (by assumption) h
  · dsimp only
    split
    · rfl
    · split
      · rfl
      · split
        · rfl
        · rfl
    · rfl

/-- `start_step` either keeps the status slot or overwrites it with a
status dict; it never clears it. -/
theorem start_step_status (sys : Sys) (i : Int) (now : Int) :
    (start_step sys i now).1.store.status = sys.store.status ∨
    ∃ doc, (start_step sys i now).1.store.status = some (.vdict doc) := by
  unfold start_step
  split
  · exact Or.inl rfl
  · dsimp only
    split
    · exact Or.inl rfl
    · split
      · exact Or.inl rfl
      · split
        · exact Or.inl rfl
        · unfold set_open_relay
          dsimp only
          split
          · exact Or.inl rfl
          · split
            · exact Or.inr ⟨_, rfl⟩
            · exact Or.inl rfl
    · exact Or.inl rfl

/-- After close-all-then-open `k`, position `j` is energized exactly when
`j = k` (for in-range indices). -/
theorem openR_exact (k j : Nat) (hk : k < 8) (hj : j < 8) :
    (((openR closeAllR k).getD j false) = true) ↔ j = k := by
  interval_cases k <;> interval_cases j <;> decide

/-! Concrete states used by the claim theorems, witnesses and
counterexamples. -/

/-- A mode document `{current: "auto"}`. -/
def modeAutoDoc : Val := .vdict [("current", .vstr "auto")]

/-- A status document for a running step on relay 3 with a deadline. -/
def statusDemo : Val :=
  .vdict [("opened_relay", .vint 3), ("opened_at", .vint 50), ("should_close_at", .vint 200)]

/-- A running system in auto mode, relay 3 energized. -/
def sysPauseDemo : Sys :=
  { store := { mode := some modeAutoDoc, status := some statusDemo, settings := none },
    relays := openR closeAllR 3 }

/-- Idle system whose settings hold an empty `sequence` list. -/
def sysEmptySeq : Sys :=
  { store := { mode := some modeAutoDoc, status := none,
               settings := some (.vdict [("sequence", .vlist [])]) },
    relays := closeAllR }

/-- Idle system whose settings document is a raw (non-JSON-object) string. -/
def sysBadSettings : Sys :=
  { store := { mode := some modeAutoDoc, status := none, settings := some (.vstr "oops") },
    relays := closeAllR }

/-- A store with a deadlined status but no settings document. -/
def storeNoSettings : Store :=
  { mode := none,
    status := some (.vdict [("opened_relay", .vint 0), ("opened_at", .vint 0),
                            ("should_close_at", .vint 10)]),
    settings := none }

/-- A paused-mode document carrying the pause metadata. -/
def modePausedDoc : Val :=
  .vdict [("current", .vstr "pause"), ("previous_mode", .vstr "auto"), ("paused_at", .vint 100)]

/-- A paused system with a running step recorded in the status. -/
def sysPausedResume : Sys :=
  { store := { mode := some modePausedDoc, status := some statusDemo, settings := none },
    relays := closeAllR }

/-- A fixed tick clock. -/
def clockDemo : Clock := { now := 0, weekday := 0, hhmm := "12:00" }

/-- Claim C1 (code bug evidence): `pause()` on a non-paused system calls the
plain `set_mode("pause")`, so the resulting mode document is exactly
`{current: "pause"}` — it carries neither `previous_mode` nor `paused_at`
(the auxiliary fields the claim says are written), and as a consequence a
subsequent `resume()` always fails. -/
theorem pause_drops_pause_metadata :
    (pause sysPauseDemo).2 = true ∧
    (pause sysPauseDemo).1.store.mode = some (.vdict [("current", Val.vstr "pause")]) ∧
    dget [("current", Val.vstr "pause")] "paused_at" = none ∧
    dget [("current", Val.vstr "pause")] "previous_mode" = none ∧
    (resume (pause sysPauseDemo).1 300).2 = false :=
  ⟨rfl, rfl, rfl, rfl, rfl⟩

/-- Claim C3 counterexample: from an idle state satisfying the invariant
(status absent, no actuator energized), `start_step 0` with a malformed
settings document (empty `sequence`) fails after already opening actuator
0, leaving the status absent while an actuator is energized — the
invariant does not survive this failure path. -/
theorem startStep_breaks_idle_invariant :
    Inv sysEmptySeq ∧
    (start_step sysEmptySeq 0 0).2 = false ∧
    ¬ Inv (start_step sysEmptySeq 0 0).1 := by
  refine ⟨⟨fun _ => rfl, fun h => absurd rfl h⟩, rfl, ?_⟩
  intro hinv
  have h0 : (start_step sysEmptySeq 0 0).1.store.status = none := rfl
  have h1 : countOpen (start_step sysEmptySeq 0 0).1.relays = 0 := hinv.1 h0
  exact absurd h1 (by decide)

/-- Claim C4 counterexample: with a malformed settings document (empty
`sequence`, so index 0 is out of range) `start_step 0` does fail and does
leave the status document unchanged, but it does not leave the actuator
state unchanged: it has already closed all actuators and opened actuator
0. -/
theorem startStep_switches_relays_on_malformed :
    (start_step sysEmptySeq 0 0).2 = false ∧
    (start_step sysEmptySeq 0 0).1.store.status = sysEmptySeq.store.status ∧
    (start_step sysEmptySeq 0 0).1.relays ≠ sysEmptySeq.relays := by
  refine ⟨rfl, rfl, ?_⟩
  intro h
  have h0 : (start_step sysEmptySeq 0 0).1.relays = openR closeAllR 0 := rfl
  rw [h0] at h
  have : ([true, false, false, false, false, false, false, false] : List Bool)
      = [false, false, false, false, false, false, false, false] := h
  nomatch this

/-- Claim C5 counterexample: when the settings document holds a raw string
(not a JSON object), the schedule-trigger branch of the poll tick raises
an `AttributeError` on `settings.get(...)`; there is no per-tick handler
in `loop/main.py` — the `try` wraps the whole `while`, so the exception
reaches the top-level `except Exception` which calls `sys.exit(1)` and
the loop terminates instead of treating the tick as a no-op. -/
theorem loop_terminates_on_malformed_settings :
    tickE sysBadSettings clockDemo = .err ∧
    runTicks sysBadSettings [clockDemo, clockDemo] = none :=
  ⟨rfl, rfl⟩

/-- Claim C7 counterexample: the status carries
`should_close_at = 10` and the clock reads `now = 50 ≥ 10`, so the claim
says `isStepFinished` returns true; but the settings document is absent,
and the code returns false after failing to load settings — the deadline
comparison is not unconditional on `should_close_at`. -/
theorem isFinished_false_without_settings :
    dget [("opened_relay", Val.vint 0), ("opened_at", Val.vint 0),
          ("should_close_at", Val.vint 10)] "should_close_at" = some (.vint 10) ∧
    ((10 : Int) ≤ 50) ∧
    storeNoSettings.settings = none ∧
    is_current_step_finished storeNoSettings 50 = false :=
  ⟨rfl, by decide, rfl, rfl⟩

/-- Settings document with an 8-entry sequence of 10-second durations. -/
def sysSeqDemo : Sys :=
  { store := { mode := some modeAutoDoc, status := none,
               settings := some (.vdict
                 [("sequence", .vlist (List.replicate 8 (.vint 10)))]) },
    relays := closeAllR }

/-- Claim C6: `startStep(i)` fails for any integer index outside `[0,7]`
without touching the state; for an in-range index with settings whose
`sequence` holds an integer duration `d` at `i`, it closes all actuators,
opens exactly actuator `i`, and writes a status with `opened_relay = i`,
`opened_at = now`, plus `should_close_at = now + d` exactly when `d > 0`. -/
theorem startStep_index_spec (sys : Sys) (i : Int) (now : Int) :
    ((i < 0 ∨ 7 < i) → start_step sys i now = (sys, false)) ∧
    (∀ fs xs d, 0 ≤ i → i ≤ 7 →
      sys.store.settings = some (.vdict fs) →
      dget fs "sequence" = some (.vlist xs) →
      xs.get? i.toNat = some (.vint d) →
      start_step sys i now =
        ({ store := { sys.store with status := some (.vdict
             (if 0 < d then
               [("opened_relay", .vint i), ("opened_at", .vint now),
                ("should_close_at", .vint (now + d))]
              else
               [("opened_relay", .vint i), ("opened_at", .vint now)])) },
           relays := openR closeAllR i.toNat }, true) ∧
      (∀ j : Nat, j < 8 →
        (((openR closeAllR i.toNat).getD j false) = true ↔ (j : Int) = i))) := by
  constructor
  · intro hi
    unfold start_step
    rw [if_pos hi]
  · intro fs xs d h0 h7 hset hseq hget
    have hne : ¬(i < 0 ∨ 7 < i) := by omega
    constructor
    · simp only [start_step, if_neg hne, hset, hseq, pyIndex, hget, set_open_relay,
        Val.asNum]
    · intro j hj
      have hk : i.toNat < 8 := by omega
      rw [openR_exact i.toNat j hk hj]
      omega

/-- Witness for claim C6 at a concrete input: starting step 2 with
10-second durations writes the expected status and opens relay 2. -/
theorem startStep_index_spec_witness :
    start_step sysSeqDemo 2 5 =
      ({ store := { sysSeqDemo.store with status := some (.vdict
           [("opened_relay", .vint 2), ("opened_at", .vint 5),
            ("should_close_at", .vint 15)]) },
         relays := openR closeAllR 2 }, true) :=
  ((startStep_index_spec sysSeqDemo 2 5).2
    [("sequence", .vlist (List.replicate 8 (.vint 10)))]
    (List.replicate 8 (.vint 10)) 10 (by decide) (by decide) rfl rfl rfl).1

theorem asNum_vint (n : Int) : (Val.vint n).asNum = some n := rfl

/-- A stored status dict with an invalid `opened_relay` makes `get_status`
return the idle value. -/
theorem get_status_none_of_invalid_relay (st : Store) (fs : List (String × Val)) (v : Val)
    (hs : st.status = some (.vdict fs)) (hv : dget fs "opened_relay" = some v)
    (hbad : valid_relay_val v = false) : get_status st = none := by
  simp only [get_status, hs]
  have hpres : ((dget fs "opened_relay").isSome || (dget fs "opened_at").isSome) = true := by
    rw [hv]; simp
  rw [if_pos hpres]
  have hrel : relayFieldOK fs = false := by
    unfold relayFieldOK
    rw [hv]
    exact hbad
  rw [hrel]
  simp

/-- Claim C2: `resume()` requires `paused_at` and `previous_mode` in the
mode document and a status with a valid `opened_relay`; on success it
shifts `should_close_at` by `now - paused_at` exactly when present
(leaving it absent otherwise), persists the status, re-opens actuator
`opened_relay`, and restores `Mode.current` to `previous_mode`; it
returns false when `paused_at` or `previous_mode` is missing, when the
status is absent (or malformed, hence read as absent), or when
`opened_relay` is missing or not a valid index. -/
theorem resume_spec (sys : Sys) (now : Int) :
    (∀ mfs status p pm rv r,
       sys.store.mode = some (.vdict mfs) →
       pyGet mfs "paused_at" = some (.vint p) →
       pyGet mfs "previous_mode" = some (.vstr pm) →
       pm ∈ VALID_MODES →
       get_status sys.store = some status →
       pyGet status "opened_relay" = some rv →
       rv.asNum = some r →
       ¬(r < 0 ∨ 7 < r) →
       ((pyGet status "should_close_at" = none →
           resume sys now =
             ({ store := { mode := some (.vdict [("current", .vstr pm)]),
                           status := some (.vdict status),
                           settings := sys.store.settings },
                relays := openR sys.relays r.toNat }, true)) ∧
        (∀ sc, pyGet status "should_close_at" = some (.vint sc) →
           resume sys now =
             ({ store := { mode := some (.vdict [("current", .vstr pm)]),
                           status := some (.vdict (dset status "should_close_at"
                             (.vint (sc + (now - p))))),
                           settings := sys.store.settings },
                relays := openR sys.relays r.toNat }, true)))) ∧
    (sys.store.mode = none → (resume sys now).2 = false) ∧
    (∀ mfs, sys.store.mode = some (.vdict mfs) → pyGet mfs "paused_at" = none →
       (resume sys now).2 = false) ∧
    (∀ mfs pav, sys.store.mode = some (.vdict mfs) → pyGet mfs "paused_at" = some pav →
       pyGet mfs "previous_mode" = none → (resume sys now).2 = false) ∧
    (get_status sys.store = none → (resume sys now).2 = false) ∧
    (∀ status, get_status sys.store = some status →
       pyGet status "opened_relay" = none → (resume sys now).2 = false) ∧
    (∀ fs v, sys.store.status = some (.vdict fs) → dget fs "opened_relay" = some v →
       valid_relay_val v = false → (resume sys now).2 = false) := by
  refine ⟨?_, ?_, ?_, ?_, ?_, ?_, ?_⟩
  · intro mfs status p pm rv r hmode hpa hpm hpmem hst hrel hnum hrange
    constructor
    · intro hsc
      simp only [resume, hmode, hpa, hpm, asNum_vint, hst, hrel, hnum, if_neg hrange, hsc,
        finishResume, set_mode_valid _ pm hpmem]
    · intro sc hsc
      simp only [resume, hmode, hpa, hpm, asNum_vint, hst, hrel, hnum, if_neg hrange, hsc,
        finishResume, set_mode_valid _ pm hpmem]
  · intro h
    simp only [resume, h]
  · intro mfs hmode h
    simp only [resume, hmode, h]
  · intro mfs pav hmode hpa h
    simp only [resume, hmode, hpa, h]
  · intro h
    unfold resume
    split
    · rfl
    · rename_i mfs _
      cases hpa : pyGet mfs "paused_at" with
      | none => rfl
      | some pav =>
          simp only [hpa]
          cases hpm : pyGet mfs "previous_mode" with
          | none => rfl
          | some pmv =>
              simp only [hpm]
              cases hn : pav.asNum with
              | none => rfl
              | some p => simp only [hn, h]
    · rfl
  · intro status hst hrel
    unfold resume
    split
    · rfl
    · rename_i mfs _
      cases hpa : pyGet mfs "paused_at" with
      | none => rfl
      | some pav =>
          simp only [hpa]
          cases hpm : pyGet mfs "previous_mode" with
          | none => rfl
          | some pmv =>
              simp only [hpm]
              cases hn : pav.asNum with
              | none => rfl
              | some p => simp only [hn, hst, hrel]
    · rfl
  · intro fs v hslot hv hbad
    have hnone : get_status sys.store = none :=
      get_status_none_of_invalid_relay sys.store fs v hslot hv hbad
    unfold resume
    split
    · rfl
    · rename_i mfs _
      cases hpa : pyGet mfs "paused_at" with
      | none => rfl
      | some pav =>
          simp only [hpa]
          cases hpm : pyGet mfs "previous_mode" with
          | none => rfl
          | some pmv =>
              simp only [hpm]
              cases hn : pav.asNum with
              | none => rfl
              | some p => simp only [hn, hnone]
    · rfl

/-- Witness for claim C2 at a concrete input: resuming a paused system
(paused at 100, resumed at 160, step on relay 3 with deadline 200)
shifts the deadline to 260, re-opens relay 3 and restores auto mode. -/
theorem resume_spec_witness :
    resume sysPausedResume 160 =
      ({ store := { mode := some (.vdict [("current", .vstr "auto")]),
                    status := some (.vdict
                      [("opened_relay", .vint 3), ("opened_at", .vint 50),
                       ("should_close_at", .vint 260)]),
                    settings := none },
         relays := openR closeAllR 3 }, true) :=
  (((resume_spec sysPausedResume 160).1
      [("current", .vstr "pause"), ("previous_mode", .vstr "auto"), ("paused_at", .vint 100)]
      [("opened_relay", .vint 3), ("opened_at", .vint 50), ("should_close_at", .vint 200)]
      100 "auto" (.vint 3) 3 rfl rfl rfl (by decide) rfl rfl rfl (by decide)).2
    200 rfl)

/-- Claim C4 (amended): when the settings `sequence` does not contain the
step's index (e.g. it is shorter than 8 and the index is out of range),
`startStep` fails (returns false, no crash) and leaves the status
document unchanged, but the actuator state is changed: all actuators
have been closed and actuator `i` opened before the failure. -/
theorem startStep_out_of_range_behavior (sys : Sys) (i now : Int)
    (fs : List (String × Val)) (xs : List Val)
    (h0 : 0 ≤ i) (h7 : i ≤ 7)
    (hset : sys.store.settings = some (.vdict fs))
    (hseq : dget fs "sequence" = some (.vlist xs))
    (hlen : xs.length ≤ i.toNat) :
    start_step sys i now = ({ sys with relays := openR closeAllR i.toNat }, false) := by
  have hne : ¬(i < 0 ∨ 7 < i) := by omega
  have hidx : pyIndex (.vlist xs) i.toNat = none := by
    simp only [pyIndex]
    exact List.get?_eq_none.mpr hlen
  simp only [start_step, if_neg hne, hset, hseq, hidx]

/-- Witness for claim C4 (amended) at a concrete input: index 0 against
an empty sequence fails while having switched the relays. -/
theorem startStep_out_of_range_behavior_witness :
    start_step sysEmptySeq 0 0 = ({ sysEmptySeq with relays := openR closeAllR 0 }, false) :=
  startStep_out_of_range_behavior sysEmptySeq 0 0
    [("sequence", .vlist [])] [] (by decide) (by decide) rfl rfl (by decide)

/-- Store of a running deadlined step together with well-formed settings. -/
def storeFinDemo : Store :=
  { mode := none,
    status := some (.vdict [("opened_relay", .vint 0), ("opened_at", .vint 0),
                            ("should_close_at", .vint 10)]),
    settings := some (.vdict [("sequence", .vlist (List.replicate 8 (.vint 10)))]) }

/-- Claim C7 (amended): `isStepFinished` returns false when the status is
absent, when `opened_relay` or `opened_at` is missing, and when
`should_close_at` is absent; with `should_close_at` present it likewise
returns false when the settings document is absent or is not an object,
when the object lacks a `sequence` field, when `sequence` has no length
(e.g. a number), when `opened_relay` is outside the sequence's range, and
when indexing the sequence at `opened_relay` fails (e.g. an object
sequence); it returns the deadline comparison `now ≥ should_close_at`
when settings are an object whose `sequence` list covers `opened_relay`
and `should_close_at` is an integer timestamp. -/
theorem isFinished_behavior (st : Store) (now : Int) :
    (get_status st = none → is_current_step_finished st now = false) ∧
    (∀ fs, get_status st = some fs →
       ((dget fs "opened_relay").isSome = false ∨ (dget fs "opened_at").isSome = false) →
       is_current_step_finished st now = false) ∧
    (∀ fs, get_status st = some fs → dget fs "should_close_at" = none →
       is_current_step_finished st now = false) ∧
    (st.settings = none → is_current_step_finished st now = false) ∧
    (∀ fs sfs xs rv r sc,
       get_status st = some fs →
       dget fs "opened_relay" = some rv → rv.asNum = some r →
       (dget fs "opened_at").isSome = true →
       dget fs "should_close_at" = some (.vint sc) →
       st.settings = some (.vdict sfs) →
       dget sfs "sequence" = some (.vlist xs) →
       0 ≤ r → r.toNat < xs.length →
       is_current_step_finished st now = decide (sc ≤ now)) ∧
    (∀ sv, st.settings = some sv → (∀ gs, sv ≠ Val.vdict gs) →
       is_current_step_finished st now = false) ∧
    (∀ sfs, st.settings = some (.vdict sfs) → dget sfs "sequence" = none →
       is_current_step_finished st now = false) ∧
    (∀ sfs seqv, st.settings = some (.vdict sfs) → dget sfs "sequence" = some seqv →
       pyLen seqv = none → is_current_step_finished st now = false) ∧
    (∀ fs sfs seqv rv r len,
       get_status st = some fs →
       dget fs "opened_relay" = some rv → rv.asNum = some r →
       st.settings = some (.vdict sfs) → dget sfs "sequence" = some seqv →
       pyLen seqv = some len → (len : Int) ≤ r →
       is_current_step_finished st now = false) ∧
    (∀ fs sfs seqv rv r len,
       get_status st = some fs →
       dget fs "opened_relay" = some rv → rv.asNum = some r →
       st.settings = some (.vdict sfs) → dget sfs "sequence" = some seqv →
       pyLen seqv = some len → ¬(r < 0 ∨ (len : Int) ≤ r) →
       pyIndex seqv r.toNat = none →
       is_current_step_finished st now = false) := by
  refine ⟨?_, ?_, ?_, ?_, ?_, ?_, ?_, ?_, ?_, ?_⟩
  · intro h
    simp only [is_current_step_finished, h]
  · intro fs hst hmiss
    rcases hmiss with h | h <;> simp [is_current_step_finished, hst, h]
  · intro fs hst h
    simp only [is_current_step_finished, hst, h]
    split <;> rfl
  · intro h
    unfold is_current_step_finished
    cases hg : get_status st with
    | none => rfl
    | some fs =>
        dsimp only
        split
        · rfl
        · cases hsc : dget fs "should_close_at" with
          | none => rfl
          | some scv =>
              cases hr : dget fs "opened_relay" with
              | none => rfl
              | some rv => simp only [h]
  · intro fs sfs xs rv r sc hst hrel hnum hat hsc hset hseq h0 hlt
    have hv : ∃ w, xs.get? r.toNat = some w := by
      rw [List.get?_eq_get hlt]
      exact ⟨_, rfl⟩
    obtain ⟨w, hw⟩ := hv
    have hidx : pyIndex (.vlist xs) r.toNat = some w := by
      simp only [pyIndex]
      exact hw
    have hbound : ¬(r < 0 ∨ (((xs.length : Nat) : Int) ≤ r)) := by omega
    simp only [is_current_step_finished, hst, hrel, hnum, hat, hsc, hset, hseq, pyLen,
      if_neg hbound, hidx, asNum_vint, Bool.and_true, Bool.and_self, Bool.not_true,
      Option.isSome_some, Bool.false_eq_true, if_false]
  · intro sv hsv hne
    unfold is_current_step_finished
    cases hg : get_status st with
    | none => rfl
    | some fs =>
        dsimp only
        split
        · rfl
        · cases hsc : dget fs "should_close_at" with
          | none => rfl
          | some scv =>
              cases hr : dget fs "opened_relay" with
              | none => rfl
              | some rv =>
                  rw [hsv]
                  cases sv with
                  | vdict gs => exact absurd rfl (hne gs)
                  | vnone => rfl
                  | vint n => rfl
                  | vbool b => rfl
                  | vstr s => rfl
                  | vlist xs => rfl
  · intro sfs hsv hseqn
    unfold is_current_step_finished
    cases hg : get_status st with
    | none => rfl
    | some fs =>
        dsimp only
        split
        · rfl
        · cases hsc : dget fs "should_close_at" with
          | none => rfl
          | some scv =>
              cases hr : dget fs "opened_relay" with
              | none => rfl
              | some rv =>
                  rw [hsv]
                  dsimp only
                  rw [hseqn]
  · intro sfs seqv hsv hseq hlenn
    unfold is_current_step_finished
    cases hg : get_status st with
    | none => rfl
    | some fs =>
        dsimp only
        split
        · rfl
        · cases hsc : dget fs "should_close_at" with
          | none => rfl
          | some scv =>
              cases hr : dget fs "opened_relay" with
              | none => rfl
              | some rv =>
                  rw [hsv]
                  dsimp only
                  rw [hseq]
                  dsimp only
                  cases hn : rv.asNum with
                  | none => rw [hlenn]
                  | some r => rw [hlenn]
  · intro fs sfs seqv rv r len hst hrel hnum hsv hseq hlen hle
    unfold is_current_step_finished
    rw [hst]
    dsimp only
    rw [hrel]
    cases hat : dget fs "opened_at" with
    | none => rfl
    | some w =>
        cases hsc : dget fs "should_close_at" with
        | none => rfl
        | some scv =>
            rw [hsv]
            dsimp only
            rw [hseq]
            dsimp only
            rw [hnum, hlen]
            dsimp only
            rw [if_pos (Or.inr hle)]
            rfl
  · intro fs sfs seqv rv r len hst hrel hnum hsv hseq hlen hnr hidx
    unfold is_current_step_finished
    rw [hst]
    dsimp only
    rw [hrel]
    cases hat : dget fs "opened_at" with
    | none => rfl
    | some w =>
        cases hsc : dget fs "should_close_at" with
        | none => rfl
        | some scv =>
            rw [hsv]
            dsimp only
            rw [hseq]
            dsimp only
            rw [hnum, hlen]
            dsimp only
            rw [if_neg hnr]
            rw [hidx]
            rfl

/-- Witness for claim C7 (amended) at a concrete input: with settings
present and the deadline 10 passed at `now = 50`, the step is finished. -/
theorem isFinished_behavior_witness :
    is_current_step_finished storeFinDemo 50 = true :=
  (isFinished_behavior storeFinDemo 50).2.2.2.2.1
    [("opened_relay", .vint 0), ("opened_at", .vint 0), ("should_close_at", .vint 10)]
    [("sequence", .vlist (List.replicate 8 (.vint 10)))]
    (List.replicate 8 (.vint 10)) (.vint 0) 0 10
    rfl rfl rfl rfl rfl rfl rfl (by decide) (by decide)

/-- `pyGet` agrees with `dget` whenever the stored value validates as a
relay index (such a value is never the JSON null). -/
theorem pyGet_of_valid (fs : List (String × Val)) (k : String) (rv : Val)
    (h : dget fs k = some rv) (hval : valid_relay_val rv = true) :
    pyGet fs k = some rv := by
  unfold pyGet
  rw [h]
  cases rv <;> first | rfl | (exact absurd hval (by simp [valid_relay_val, Val.asNum]))

/-- A finished step has `opened_relay` present in the status document. -/
theorem finished_relay_present (st : Store) (now : Int) (fs : List (String × Val))
    (hfin : is_current_step_finished st now = true) (hg : get_status st = some fs) :
    ∃ rv, dget fs "opened_relay" = some rv := by
  unfold is_current_step_finished at hfin
  rw [hg] at hfin
  dsimp only at hfin
  cases hr : dget fs "opened_relay" with
  | some rv => exact ⟨rv, rfl⟩
  | none =>
      rw [hr] at hfin
      simp at hfin

/-- A system holding at the final step (relay 7) in auto mode. -/
def sysLastStep : Sys :=
  { store := { mode := some modeAutoDoc,
               status := some (.vdict [("opened_relay", .vint 7), ("opened_at", .vint 0),
                                       ("should_close_at", .vint 10)]),
               settings := some (.vdict [("sequence", .vlist (List.replicate 8 (.vint 10)))]) },
    relays := openR closeAllR 7 }

/-- A tick clock past the demo deadline. -/
def clockLate : Clock := { now := 50, weekday := 0, hhmm := "00:00" }

/-- Claim C8: in auto/semi-auto mode with a status present, a tick calls
`startStep(opened_relay + 1)` exactly when the current step is finished
and `opened_relay < 7`; when it is not finished, or when
`opened_relay ≥ 7`, the tick changes nothing; in particular with
`opened_relay = 7` the state (status and the energized actuator 7) is a
fixed point of the loop across arbitrarily many ticks. -/
theorem tick_advances_iff_finished (sys : Sys) (c : Clock) (fs : List (String × Val))
    (hm : get_mode sys.store = some MODE_AUTO ∨ get_mode sys.store = some MODE_SEMI_AUTO)
    (hs : get_status sys.store = some fs) :
    (∀ rv r, pyGet fs "opened_relay" = some rv → rv.asNum = some r → r < 7 →
       is_current_step_finished sys.store c.now = true →
       tickE sys c = .ok (start_step sys (r + 1) c.now).1 (some (.advance (r + 1)))) ∧
    (is_current_step_finished sys.store c.now = false → tickE sys c = .ok sys none) ∧
    (∀ rv r, pyGet fs "opened_relay" = some rv → rv.asNum = some r → 7 ≤ r →
       tickE sys c = .ok sys none) ∧
    (is_current_step_finished sys.store c.now = true →
       ∃ rv r, pyGet fs "opened_relay" = some rv ∧ rv.asNum = some r ∧ 0 ≤ r ∧ r ≤ 7) ∧
    (dget fs "opened_relay" = some (.vint 7) →
       ∀ cs : List Clock, runTicks sys cs = some sys) := by
  refine ⟨?_, ?_, ?_, ?_, ?_⟩
  · intro rv r hrel hnum hlt hfin
    unfold tickE
    dsimp only
    rw [if_pos hm, hs]
    dsimp only
    rw [hfin, hrel]
    dsimp only
    rw [hnum]
    dsimp only
    rw [if_pos hlt]
    exact if_pos rfl
  · intro hfin
    unfold tickE
    dsimp only
    rw [if_pos hm, hs]
    dsimp only
    rw [hfin]
    exact if_neg (by simp)
  · intro rv r hrel hnum hge
    cases hfin : is_current_step_finished sys.store c.now with
    | false =>
        unfold tickE
        dsimp only
        rw [if_pos hm, hs]
        dsimp only
        rw [hfin]
        exact if_neg (by simp)
    | true =>
        unfold tickE
        dsimp only
        rw [if_pos hm, hs]
        dsimp only
        rw [hfin, hrel]
        dsimp only
        rw [hnum]
        dsimp only
        rw [if_neg (by omega : ¬(r < 7))]
        exact if_pos rfl
  · intro hfin
    obtain ⟨rv, hrv⟩ := finished_relay_present sys.store c.now fs hfin hs
    have hval := get_status_relay_valid sys.store fs rv hs hrv
    obtain ⟨r, hr, h0, h7⟩ := valid_relay_num rv hval
    exact ⟨rv, r, pyGet_of_valid fs "opened_relay" rv hrv hval, hr, h0, h7⟩
  · intro hd7
    have hrel : pyGet fs "opened_relay" = some (.vint 7) := by
      simp [pyGet, hd7]
    have htick : ∀ c' : Clock, tickE sys c' = .ok sys none := by
      intro c'
      cases hfin : is_current_step_finished sys.store c'.now with
      | false =>
          unfold tickE
          dsimp only
          rw [if_pos hm, hs]
          dsimp only
          rw [hfin]
          exact if_neg (by simp)
      | true =>
          unfold tickE
          dsimp only
          rw [if_pos hm, hs]
          dsimp only
          rw [hfin, hrel]
          dsimp only
          rw [asNum_vint]
          dsimp only
          rw [if_neg (by omega : ¬((7 : Int) < 7))]
          exact if_pos rfl
    intro cs
    induction cs with
    | nil => rfl
    | cons c' cs' ih =>
        simp only [runTicks, htick c']
        exact ih

/-- Witness for claim C8 at a concrete input: a finished last step
(relay 7, deadline 10, clock 50) is a fixed point of three ticks. -/
theorem tick_advances_iff_finished_witness :
    runTicks sysLastStep [clockLate, clockLate, clockLate] = some sysLastStep :=
  (tick_advances_iff_finished sysLastStep clockLate
      [("opened_relay", .vint 7), ("opened_at", .vint 0), ("should_close_at", .vint 10)]
      (Or.inl rfl) rfl).2.2.2.2 rfl [clockLate, clockLate, clockLate]

theorem truthy_vbool (b : Bool) : truthy (.vbool b) = b := rfl

theorem pyLen_vlist (xs : List Val) : pyLen (.vlist xs) = some xs.length := rfl

theorem pyIndex_vlist (xs : List Val) (k : Nat) : pyIndex (.vlist xs) k = xs.get? k := rfl

theorem valEqStr_vstr (t u : String) : valEqStr (.vstr t) u = (t == u) := rfl

/-- A schedule-triggering system: auto mode, idle, Sunday 20:00 start. -/
def sysTrigDemo : Sys :=
  { store := { mode := some modeAutoDoc, status := none,
               settings := some (.vdict
                 [("start_at", .vstr "20:00"),
                  ("sequence", .vlist (List.replicate 8 (.vint 10))),
                  ("schedule", .vlist (([false, false, false, false, false, false,
                                         true] : List Bool).map Val.vbool))]) },
    relays := closeAllR }

/-- The tick clock at Sunday 20:00. -/
def clockTrig : Clock := { now := 1000, weekday := 6, hhmm := "20:00" }

/-- Claim C9: the schedule trigger runs only when the mode is auto or
semi-auto and the status is absent; it is a silent no-op when settings
are missing or `schedule`/`start_at` are empty (falsy); and with a
well-formed schedule it calls `startSequence()` exactly when
`schedule[weekday]` is true and the minute clock string equals
`start_at`. -/
theorem schedule_trigger_spec (sys : Sys) (c : Clock) :
    (¬(get_mode sys.store = some MODE_AUTO ∨ get_mode sys.store = some MODE_SEMI_AUTO) →
       tickE sys c = .ok sys none) ∧
    (∀ fs sys1 a,
       (get_mode sys.store = some MODE_AUTO ∨ get_mode sys.store = some MODE_SEMI_AUTO) →
       get_status sys.store = some fs → tickE sys c = .ok sys1 a →
       a ≠ some .seqStart) ∧
    ((get_mode sys.store = some MODE_AUTO ∨ get_mode sys.store = some MODE_SEMI_AUTO) →
       get_status sys.store = none → sys.store.settings = none →
       tickE sys c = .ok sys none) ∧
    ((get_mode sys.store = some MODE_AUTO ∨ get_mode sys.store = some MODE_SEMI_AUTO) →
       get_status sys.store = none → ∀ fs, sys.store.settings = some (.vdict fs) →
       (truthy ((dget fs "schedule").getD (.vlist [])) = false ∨
        truthy ((dget fs "start_at").getD (.vstr "")) = false) →
       tickE sys c = .ok sys none) ∧
    ((get_mode sys.store = some MODE_AUTO ∨ get_mode sys.store = some MODE_SEMI_AUTO) →
       get_status sys.store = none →
       ∀ (fs : List (String × Val)) (bs : List Bool) (s : String),
       sys.store.settings = some (.vdict fs) →
       dget fs "schedule" = some (.vlist (bs.map Val.vbool)) → bs.length = 7 →
       dget fs "start_at" = some (.vstr s) → s ≠ "" → c.weekday < 7 →
       ((bs.get? c.weekday = some true → c.hhmm = s →
           tickE sys c = .ok (start_sequence sys c.now).1 (some .seqStart)) ∧
        ((bs.get? c.weekday = some false ∨ c.hhmm ≠ s) →
           tickE sys c = .ok sys none))) := by
  refine ⟨?_, ?_, ?_, ?_, ?_⟩
  · intro h
    unfold tickE
    dsimp only
    rw [if_neg h]
  · intro fs sys1 a hm hs htick
    unfold tickE at htick
    dsimp only at htick
    rw [if_pos hm, hs] at htick
    dsimp only at htick
    cases hfin : is_current_step_finished sys.store c.now with
    | false =>
        rw [hfin, if_neg (by simp : ¬(false = true))] at htick
        injection htick with h1 h2
        rw [← h2]
        exact fun hc => Option.noConfusion hc
    | true =>
        rw [hfin, if_pos rfl] at htick
        cases hrel : pyGet fs "opened_relay" with
        | none =>
            rw [hrel] at htick
            dsimp only at htick
            injection htick with h1 h2
            rw [← h2]
            exact fun hc => Option.noConfusion hc
        | some rv =>
            rw [hrel] at htick
            dsimp only at htick
            cases hnum : rv.asNum with
            | none =>
                rw [hnum] at htick
                dsimp only at htick
                exact TickResult.noConfusion htick
            | some r =>
                rw [hnum] at htick
                dsimp only at htick
                by_cases hlt : r < 7
                · rw [if_pos hlt] at htick
                  injection htick with h1 h2
                  rw [← h2]
                  intro hc
                  injection hc with hc2
                  exact Action.noConfusion hc2
                · rw [if_neg hlt] at htick
                  injection htick with h1 h2
                  rw [← h2]
                  exact fun hc => Option.noConfusion hc
  · intro hm hg hset
    unfold tickE
    dsimp only
    rw [if_pos hm, hg]
    dsimp only
    rw [hset]
  · intro hm hg fs hset hfalsy
    unfold tickE
    dsimp only
    rw [if_pos hm, hg]
    dsimp only
    rw [hset]
    dsimp only
    have hcond : (truthy ((dget fs "schedule").getD (.vlist [])) &&
        truthy ((dget fs "start_at").getD (.vstr ""))) = false := by
      rcases hfalsy with h | h <;> simp [h]
    rw [hcond]
    exact if_neg (by simp)
  · intro hm hg fs bs s hset hsch hlen hsat hsne hwk
    have hschD : (dget fs "schedule").getD (.vlist []) = .vlist (bs.map Val.vbool) := by
      rw [hsch]; rfl
    have hsatD : (dget fs "start_at").getD (.vstr "") = .vstr s := by
      rw [hsat]; rfl
    have hbs_ne : bs ≠ [] := by
      intro hnil
      rw [hnil] at hlen
      simp at hlen
    have htr1 : truthy (.vlist (bs.map Val.vbool)) = true := by
      cases bs with
      | nil => exact absurd rfl hbs_ne
      | cons b t => rfl
    have htr2 : truthy (.vstr s) = true := by
      simp [truthy, hsne]
    have hlenmap : (bs.map Val.vbool).length = 7 := by
      rw [List.length_map]; exact hlen
    constructor
    · intro hb hh
      unfold tickE
      dsimp only
      rw [if_pos hm, hg]
      dsimp only
      rw [hset]
      dsimp only
      rw [hschD, hsatD, htr1, htr2, if_pos (show (true && true) = true from rfl),
        pyLen_vlist, hlenmap]
      dsimp only
      rw [if_pos (show c.weekday < 7 from hwk), pyIndex_vlist, List.get?_map, hb]
      simp only [Option.map_some']
      rw [truthy_vbool, if_pos rfl, valEqStr_vstr]
      have hss : (s == c.hhmm) = true := by
        rw [hh]
        simp
      rw [hss, if_pos rfl]
    · intro hdisj
      unfold tickE
      dsimp only
      rw [if_pos hm, hg]
      dsimp only
      rw [hset]
      dsimp only
      rw [hschD, hsatD, htr1, htr2, if_pos (show (true && true) = true from rfl),
        pyLen_vlist, hlenmap]
      dsimp only
      rw [if_pos (show c.weekday < 7 from hwk), pyIndex_vlist, List.get?_map]
      rcases hdisj with hb | hne
      · rw [hb]
        simp only [Option.map_some']
        rw [truthy_vbool]
        exact if_neg (by simp)
      · have hsome : ∃ b, bs.get? c.weekday = some b := by
          cases hgb : bs.get? c.weekday with
          | none =>
              rw [List.get?_eq_none] at hgb
              omega
          | some b => exact ⟨b, rfl⟩
        obtain ⟨b, hb⟩ := hsome
        rw [hb]
        simp only [Option.map_some']
        rw [truthy_vbool]
        cases b with
        | false => exact if_neg (by simp)
        | true =>
            rw [if_pos rfl, valEqStr_vstr]
            have hss : (s == c.hhmm) = false := by
              have : s ≠ c.hhmm := fun h => hne h.symm
              simp [this]
            rw [hss]
            exact if_neg (by simp)

/-- Witness for claim C9 at a concrete input: mode auto, idle status,
`schedule` true only on Sunday, `start_at = "20:00"`, clock Sunday 20:00
— the tick starts the sequence. -/
theorem schedule_trigger_spec_witness :
    tickE sysTrigDemo clockTrig = .ok (start_sequence sysTrigDemo 1000).1 (some .seqStart) :=
  (((schedule_trigger_spec sysTrigDemo clockTrig).2.2.2.2 (Or.inl rfl) rfl
      [("start_at", .vstr "20:00"),
       ("sequence", .vlist (List.replicate 8 (.vint 10))),
       ("schedule", .vlist (([false, false, false, false, false, false,
                              true] : List Bool).map Val.vbool))]
      [false, false, false, false, false, false, true] "20:00"
      rfl rfl rfl rfl (by decide) (by decide)).1 rfl rfl)

/-- Observable outcome of a tick: `none` when the tick raised, otherwise
the action it invoked. -/
def tickObs : TickResult → Option (Option Action)
  | .err => none
  | .ok _ a => some a

/-- A store whose status document is present but malformed
(`opened_relay = 9`). -/
def storeMalDemo : Store :=
  { mode := some modeAutoDoc,
    status := some (.vdict [("opened_relay", .vint 9), ("opened_at", .vint 5)]),
    settings := none }

/-- Claim C10: a stored status dict whose `opened_relay` is present but
not an integer in `[0,7]`, or whose `opened_at` is present but not a
non-negative number, makes `get_status` return the absent/idle value
(`None`) rather than a distinct error; consequently a poll tick behaves
observably the same as on an idle system (same action or exception). -/
theorem getStatus_malformed_is_idle (st : Store) (fs : List (String × Val)) :
    (∀ v, st.status = some (.vdict fs) → dget fs "opened_relay" = some v →
       valid_relay_val v = false → get_status st = none) ∧
    (∀ v, st.status = some (.vdict fs) → dget fs "opened_at" = some v →
       valid_ts_val v = false → get_status st = none) ∧
    (∀ (sys : Sys) (c : Clock), sys.store = st → get_status st = none →
       tickObs (tickE sys c) =
       tickObs (tickE { store := { st with status := none },
                        relays := sys.relays } c)) := by
  refine ⟨?_, ?_, ?_⟩
  · intro v hs hv hbad
    exact get_status_none_of_invalid_relay st fs v hs hv hbad
  · intro v hs hv hbad
    simp only [get_status, hs]
    have hpres : ((dget fs "opened_relay").isSome || (dget fs "opened_at").isSome) = true := by
      rw [hv]; simp
    rw [if_pos hpres]
    have hat : atFieldOK fs = false := by
      unfold atFieldOK
      rw [hv]
      exact hbad
    rw [hat]
    simp
  · intro sys c hsys hnone
    subst hsys
    unfold tickE
    dsimp only
    rw [hnone]
    have hgm : get_mode { sys.store with status := none } = get_mode sys.store := rfl
    have hg2 : get_status { sys.store with status := none } = none := rfl
    rw [hgm, hg2]
    by_cases hc : (get_mode sys.store = some MODE_AUTO ∨
        get_mode sys.store = some MODE_SEMI_AUTO)
    · rw [if_pos hc, if_pos hc]
      dsimp only
      cases hset : sys.store.settings with
      | none => rfl
      | some sv =>
          cases sv with
          | vdict fs2 =>
              dsimp only
              by_cases htr : (truthy ((dget fs2 "schedule").getD (.vlist [])) &&
                  truthy ((dget fs2 "start_at").getD (.vstr ""))) = true
              · rw [if_pos htr, if_pos htr]
                cases hl : pyLen ((dget fs2 "schedule").getD (.vlist [])) with
                | none => rfl
                | some len =>
                    dsimp only
                    by_cases hwk : c.weekday < len
                    · rw [if_pos hwk, if_pos hwk]
                      cases hi : pyIndex ((dget fs2 "schedule").getD (.vlist []))
                          c.weekday with
                      | none => rfl
                      | some dv =>
                          dsimp only
                          by_cases htv : truthy dv = true
                          · rw [if_pos htv, if_pos htv]
                            by_cases heq : valEqStr ((dget fs2 "start_at").getD
                                (.vstr "")) c.hhmm = true
                            · rw [if_pos heq, if_pos heq]; rfl
                            · rw [if_neg heq, if_neg heq]; rfl
                          · rw [if_neg htv, if_neg htv]; rfl
                    · rw [if_neg hwk, if_neg hwk]; rfl
              · rw [if_neg htr, if_neg htr]; rfl
          | vnone => rfl
          | vint n => rfl
          | vbool b => rfl
          | vstr s => rfl
          | vlist xs => rfl
    · rw [if_neg hc, if_neg hc]; rfl

/-- Witness for claim C10 at a concrete input: a status document with
`opened_relay = 9` reads as idle. -/
theorem getStatus_malformed_is_idle_witness :
    get_status storeMalDemo = none :=
  (getStatus_malformed_is_idle storeMalDemo
      [("opened_relay", .vint 9), ("opened_at", .vint 5)]).1
    (.vint 9) rfl rfl (by decide)

/-- Exhaustive outcome analysis of `start_step`: either the index guard
rejects it untouched, or (relays switched to open-exactly-`i`) it either
succeeded writing a status dict or failed leaving the status slot as it
was. -/
theorem start_step_cases (sys : Sys) (i now : Int) :
    start_step sys i now = (sys, false) ∨
    (¬(i < 0 ∨ 7 < i) ∧
      (start_step sys i now).1.relays = openR closeAllR i.toNat ∧
      (((start_step sys i now).2 = true ∧
         ∃ doc, (start_step sys i now).1.store.status = some (.vdict doc)) ∨
       ((start_step sys i now).2 = false ∧
         (start_step sys i now).1.store.status = sys.store.status))) := by
  unfold start_step
  split
  · exact Or.inl rfl
  · rename_i hi
    dsimp only
    split
    · exact Or.inr ⟨hi, rfl, Or.inr ⟨rfl, rfl⟩⟩
    · split
      · exact Or.inr ⟨hi, rfl, Or.inr ⟨rfl, rfl⟩⟩
      · split
        · exact Or.inr ⟨hi, rfl, Or.inr ⟨rfl, rfl⟩⟩
        · unfold set_open_relay
          dsimp only
          split
          · exact absurd (by assumption) hi
          · split
            · exact Or.inr ⟨hi, rfl, Or.inl ⟨rfl, ⟨_, rfl⟩⟩⟩
            · exact Or.inr ⟨hi, rfl, Or.inr ⟨rfl, rfl⟩⟩
    · exact Or.inr ⟨hi, rfl, Or.inr ⟨rfl, rfl⟩⟩

/-- A successful `start_step` establishes the Status invariant. -/
theorem start_step_success_inv (sys : Sys) (i now : Int)
    (hok : (start_step sys i now).2 = true) : Inv (start_step sys i now).1 := by
  rcases start_step_cases sys i now with heq | ⟨hi, hrel, hcase⟩
  · rw [heq] at hok
    exact absurd hok (by simp)
  · have hk : i.toNat < 8 := by omega
    have hcnt : countOpen (start_step sys i now).1.relays = 1 := by
      rw [hrel]
      exact countOpen_openR_closeAll _ hk
    rcases hcase with ⟨_, doc, hdoc⟩ | ⟨hfalse, _⟩
    · constructor
      · intro h0
        rw [hdoc] at h0
        exact Option.noConfusion h0
      · intro _
        omega
    · rw [hfalse] at hok
      exact absurd hok (by simp)

/-- A successful `start_sequence` establishes the Status invariant. -/
theorem start_sequence_success_inv (sys : Sys) (now : Int)
    (hok : (start_sequence sys now).2 = true) : Inv (start_sequence sys now).1 := by
  have h : start_sequence sys now =
      start_step { sys with store := { sys.store with status := none } } 0 now := rfl
  rw [h] at hok ⊢
  exact start_step_success_inv _ 0 now hok

/-- `start_sequence` never touches the settings document. -/
theorem start_sequence_preserves_settings (sys : Sys) (now : Int) :
    (start_sequence sys now).1.store.settings = sys.store.settings := by
  have h : start_sequence sys now =
      start_step { sys with store := { sys.store with status := none } } 0 now := rfl
  rw [h, start_step_preserves_settings]

/-- The final stretch of `resume` leaves the status slot holding the
written document. -/
theorem finishResume_status (sys : Sys) (doc : List (String × Val)) (r : Int) (pmv : Val) :
    (finishResume sys doc r pmv).1.store.status = some (.vdict doc) := by
  unfold finishResume
  cases pmv with
  | vstr pm =>
      dsimp only
      rw [set_mode_preserves_status]
  | vnone => rfl
  | vint n => rfl
  | vbool b => rfl
  | vlist xs => rfl
  | vdict gs => rfl

/-- The final stretch of `resume` opens exactly relay `r` on top of the
relays as they were. -/
theorem finishResume_relays (sys : Sys) (doc : List (String × Val)) (r : Int) (pmv : Val) :
    (finishResume sys doc r pmv).1.relays = openR sys.relays r.toNat := by
  cases pmv <;> rfl

/-- Outcome analysis of `resume`: it either leaves the state untouched,
or it has written a status dict and opened one in-range relay. -/
theorem resume_cases (sys : Sys) (now : Int) :
    (resume sys now).1 = sys ∨
    ∃ (doc : List (String × Val)) (r : Int), ¬(r < 0 ∨ 7 < r) ∧
      (resume sys now).1.store.status = some (.vdict doc) ∧
      (resume sys now).1.relays = openR sys.relays r.toNat := by
  unfold resume
  split
  · exact Or.inl rfl
  · split
    · exact Or.inl rfl
    · split
      · exact Or.inl rfl
      · split
        · exact Or.inl rfl
        · dsimp only
          split
          · exact Or.inl rfl
          · split
            · exact Or.inl rfl
            · split
              · exact Or.inl rfl
              · split
                · exact Or.inl rfl
                · rename_i hr
                  split
                  · split
                    · exact Or.inl rfl
                    · exact Or.inr ⟨_, _, hr, finishResume_status _ _ _ _,
                        finishResume_relays _ _ _ _⟩
                  · exact Or.inr ⟨_, _, hr, finishResume_status _ _ _ _,
                      finishResume_relays _ _ _ _⟩
  · exact Or.inl rfl

/-- One poll tick preserves the Status invariant, provided any
schedule-fired `start_sequence` succeeded (the failure of that call is
exactly the invariant-breaking path exhibited by the C3 counterexample). -/
theorem tick_inv (sys : Sys) (c : Clock) (h : Inv sys) :
    ∀ sys1 a, tickE sys c = .ok sys1 a →
      (a = some .seqStart → (start_sequence sys c.now).2 = true) → Inv sys1 := by
  intro sys1 a htick hseq
  unfold tickE at htick
  dsimp only at htick
  by_cases hgm : (get_mode sys.store = some MODE_AUTO ∨
      get_mode sys.store = some MODE_SEMI_AUTO)
  case neg =>
    rw [if_neg hgm] at htick
    injection htick with h1 h2
    rw [← h1]
    exact h
  case pos =>
    rw [if_pos hgm] at htick
    cases hg : get_status sys.store with
    | some gs =>
        rw [hg] at htick
        dsimp only at htick
        have hslot := get_status_slot sys.store gs hg
        have hsne : sys.store.status ≠ none := by
          rw [hslot]
          exact fun hh => Option.noConfusion hh
        cases hfin : is_current_step_finished sys.store c.now with
        | false =>
            rw [hfin, if_neg (by simp : ¬(false = true))] at htick
            injection htick with h1 h2
            rw [← h1]
            exact h
        | true =>
            rw [hfin, if_pos rfl] at htick
            cases hrel : pyGet gs "opened_relay" with
            | none =>
                rw [hrel] at htick
                dsimp only at htick
                injection htick with h1 h2
                rw [← h1]
                exact h
            | some rv =>
                rw [hrel] at htick
                dsimp only at htick
                have hval := get_status_relay_valid sys.store gs rv hg
                  (pyGet_eq_dget gs "opened_relay" rv hrel)
                obtain ⟨r, hr, h0, h7⟩ := valid_relay_num rv hval
                rw [hr] at htick
                dsimp only at htick
                by_cases hlt : r < 7
                · rw [if_pos hlt] at htick
                  injection htick with h1 h2
                  rw [← h1]
                  rcases start_step_cases sys (r + 1) c.now with heq | ⟨hi, hrelays, hcase⟩
                  · rw [heq]
                    exact h
                  · have hk : (r + 1).toNat < 8 := by omega
                    have hcnt := countOpen_openR_closeAll ((r + 1).toNat) hk
                    rcases hcase with ⟨_, doc, hdoc⟩ | ⟨_, hstat⟩
                    · constructor
                      · intro h0'
                        rw [hdoc] at h0'
                        exact Option.noConfusion h0'
                      · intro _
                        rw [hrelays]
                        omega
                    · constructor
                      · intro h0'
                        rw [hstat] at h0'
                        exact absurd h0' hsne
                      · intro _
                        rw [hrelays]
                        omega
                · rw [if_neg hlt] at htick
                  injection htick with h1 h2
                  rw [← h1]
                  exact h
    | none =>
        rw [hg] at htick
        dsimp only at htick
        cases hset : sys.store.settings with
        | none =>
            rw [hset] at htick
            injection htick with h1 h2
            rw [← h1]
            exact h
        | some sv =>
            cases sv with
            | vdict fs =>
                rw [hset] at htick
                dsimp only at htick
                by_cases htr : (truthy ((dget fs "schedule").getD (.vlist [])) &&
                    truthy ((dget fs "start_at").getD (.vstr ""))) = true
                · rw [if_pos htr] at htick
                  cases hl : pyLen ((dget fs "schedule").getD (.vlist [])) with
                  | none =>
                      rw [hl] at htick
                      exact TickResult.noConfusion htick
                  | some len =>
                      rw [hl] at htick
                      dsimp only at htick
                      by_cases hwk : c.weekday < len
                      · rw [if_pos hwk] at htick
                        cases hi : pyIndex ((dget fs "schedule").getD (.vlist []))
                            c.weekday with
                        | none =>
                            rw [hi] at htick
                            exact TickResult.noConfusion htick
                        | some dv =>
                            rw [hi] at htick
                            dsimp only at htick
                            by_cases htv : truthy dv = true
                            · rw [if_pos htv] at htick
                              by_cases heq : valEqStr ((dget fs "start_at").getD
                                  (.vstr "")) c.hhmm = true
                              · rw [if_pos heq] at htick
                                injection htick with h1 h2
                                rw [← h1]
                                exact start_sequence_success_inv sys c.now (hseq h2.symm)
                              · rw [if_neg heq] at htick
                                injection htick with h1 h2
                                rw [← h1]
                                exact h
                            · rw [if_neg htv] at htick
                              injection htick with h1 h2
                              rw [← h1]
                              exact h
                      · rw [if_neg hwk] at htick
                        injection htick with h1 h2
                        rw [← h1]
                        exact h
                · rw [if_neg htr] at htick
                  injection htick with h1 h2
                  rw [← h1]
                  exact h
            | vnone =>
                rw [hset] at htick
                exact TickResult.noConfusion htick
            | vint n =>
                rw [hset] at htick
                exact TickResult.noConfusion htick
            | vbool b =>
                rw [hset] at htick
                exact TickResult.noConfusion htick
            | vstr s =>
                rw [hset] at htick
                exact TickResult.noConfusion htick
            | vlist xs =>
                rw [hset] at htick
                exact TickResult.noConfusion htick

/-- Claim C3 (amended): `pause`, `reset` and `manual` preserve the Status
invariant unconditionally (failure paths included); `startStep` and
`startSequence` establish it whenever they return success; `resume`
preserves it from any state with no actuator energized (the state `pause`
leaves behind); and a poll tick preserves it provided any
schedule-triggered `startSequence` it fires succeeds — the failing
`startStep`/`startSequence` paths (exhibited by the counterexample) are
exactly where the code can leave an actuator energized with the Status
document absent. -/
theorem ops_preserve_inv (sys : Sys) (i now : Int) (c : Clock) (h : Inv sys) :
    Inv (pause sys).1 ∧ Inv (reset sys).1 ∧ Inv (manual sys).1 ∧
    ((start_step sys i now).2 = true → Inv (start_step sys i now).1) ∧
    ((start_sequence sys now).2 = true → Inv (start_sequence sys now).1) ∧
    (countOpen sys.relays = 0 → Inv (resume sys now).1) ∧
    (∀ sys1 a, tickE sys c = .ok sys1 a →
       (a = some .seqStart → (start_sequence sys c.now).2 = true) → Inv sys1) := by
  refine ⟨?_, ?_, ?_, start_step_success_inv sys i now, start_sequence_success_inv sys now,
    ?_, tick_inv sys c h⟩
  · by_cases hp : get_mode sys.store = some MODE_PAUSE
    · unfold pause
      rw [if_pos hp]
      exact h
    · unfold pause
      rw [if_neg hp, set_mode_valid sys.store MODE_PAUSE (by decide)]
      refine ⟨fun _ => countOpen_closeAll, fun _ => ?_⟩
      show countOpen closeAllR ≤ 1
      have h0 := countOpen_closeAll
      omega
  · exact ⟨fun _ => countOpen_closeAll, fun hne => absurd rfl hne⟩
  · exact ⟨fun _ => countOpen_closeAll, fun hne => absurd rfl hne⟩
  · intro hcnt
    rcases resume_cases sys now with heq | ⟨doc, r, hr, hstat, hrel⟩
    · rw [heq]
      exact h
    · constructor
      · intro h0
        rw [hstat] at h0
        exact Option.noConfusion h0
      · intro _
        have hle := countOpen_set_true_le sys.relays r.toNat
        rw [hrel]
        show countOpen (sys.relays.set r.toNat true) ≤ 1
        omega

/-- Witness for claim C3 (amended) at a concrete input: from an
invariant-satisfying idle state, pause, reset and manual all preserve the
invariant. -/
theorem ops_preserve_inv_witness :
    Inv (pause sysSeqDemo).1 ∧ Inv (reset sysSeqDemo).1 ∧ Inv (manual sysSeqDemo).1 := by
  have hInv : Inv sysSeqDemo := ⟨fun _ => rfl, fun hne => absurd rfl hne⟩
  have h := ops_preserve_inv sysSeqDemo 0 0 clockDemo hInv
  exact ⟨h.1, h.2.1, h.2.2.1⟩

/-- Settings shapes on which the tick body cannot raise: the document is
absent, or it is an object whose `schedule` field (when present) is a
list.  This covers every error the spec lists (absent documents, failed
sub-operations), since those are swallowed inside the sub-operations. -/
def benignSettings (st : Store) : Prop :=
  st.settings = none ∨
  ∃ fs, st.settings = some (.vdict fs) ∧
    (dget fs "schedule" = none ∨ ∃ xs, dget fs "schedule" = some (.vlist xs))

/-- On benign settings a tick always completes, and it never changes the
settings document. -/
theorem tick_ok_of_benign (sys : Sys) (c : Clock) (hb : benignSettings sys.store) :
    ∃ sys1 a, tickE sys c = .ok sys1 a ∧ sys1.store.settings = sys.store.settings := by
  unfold tickE
  dsimp only
  by_cases hgm : (get_mode sys.store = some MODE_AUTO ∨
      get_mode sys.store = some MODE_SEMI_AUTO)
  case neg =>
    rw [if_neg hgm]
    exact ⟨sys, none, rfl, rfl⟩
  case pos =>
    rw [if_pos hgm]
    cases hg : get_status sys.store with
    | some gs =>
        dsimp only
        cases hfin : is_current_step_finished sys.store c.now with
        | false =>
            rw [if_neg (by simp : ¬(false = true))]
            exact ⟨sys, none, rfl, rfl⟩
        | true =>
            rw [if_pos rfl]
            cases hrel : pyGet gs "opened_relay" with
            | none => exact ⟨sys, none, rfl, rfl⟩
            | some rv =>
                dsimp only
                have hval := get_status_relay_valid sys.store gs rv hg
                  (pyGet_eq_dget gs "opened_relay" rv hrel)
                obtain ⟨r, hr, h0, h7⟩ := valid_relay_num rv hval
                rw [hr]
                dsimp only
                by_cases hlt : r < 7
                · rw [if_pos hlt]
                  exact ⟨_, _, rfl, start_step_preserves_settings sys (r + 1) c.now⟩
                · rw [if_neg hlt]
                  exact ⟨sys, none, rfl, rfl⟩
    | none =>
        dsimp only
        rcases hb with hnone | ⟨fs, hset, hsch⟩
        · rw [hnone]
          exact ⟨sys, none, rfl, hnone⟩
        · rw [hset]
          dsimp only
          by_cases htr : (truthy ((dget fs "schedule").getD (.vlist [])) &&
              truthy ((dget fs "start_at").getD (.vstr ""))) = true
          · rw [if_pos htr]
            rcases hsch with hn | ⟨xs, hx⟩
            · exfalso
              rw [hn] at htr
              simp [truthy] at htr
            · rw [hx]
              simp only [Option.getD_some]
              rw [pyLen_vlist]
              dsimp only
              by_cases hwk : c.weekday < xs.length
              · rw [if_pos hwk, pyIndex_vlist]
                have hdv : ∃ dv, xs.get? c.weekday = some dv := by
                  cases hq : xs.get? c.weekday with
                  | none =>
                      rw [List.get?_eq_none] at hq
                      omega
                  | some dv => exact ⟨dv, rfl⟩
                obtain ⟨dv, hq⟩ := hdv
                rw [hq]
                dsimp only
                by_cases htv : truthy dv = true
                · rw [if_pos htv]
                  by_cases heq : valEqStr ((dget fs "start_at").getD (.vstr ""))
                      c.hhmm = true
                  · rw [if_pos heq]
                    exact ⟨_, _, rfl,
                      (start_sequence_preserves_settings sys c.now).trans hset⟩
                  · rw [if_neg heq]
                    exact ⟨sys, none, rfl, hset⟩
                · rw [if_neg htv]
                  exact ⟨sys, none, rfl, hset⟩
              · rw [if_neg hwk]
                exact ⟨sys, none, rfl, hset⟩
          · rw [if_neg htr]
            exact ⟨sys, none, rfl, hset⟩

/-- Claim C5 (amended): errors inside the sub-operations (absent or
malformed-but-object documents, failed starts) are swallowed by those
sub-operations, so the tick is a no-op and the loop keeps ticking over
any benign sequence of tick clocks; a settings document holding a
non-object value (or a non-list `schedule`) is the exception — there the
tick raises and the top-level handler terminates the loop (see the
counterexample). -/
theorem loop_keeps_ticking_on_benign_settings (sys : Sys) (cs : List Clock)
    (hb : benignSettings sys.store) :
    ∃ sys1, runTicks sys cs = some sys1 := by
  induction cs generalizing sys with
  | nil => exact ⟨sys, rfl⟩
  | cons c cs ih =>
      obtain ⟨s1, a, ht, hset⟩ := tick_ok_of_benign sys c hb
      have hb1 : benignSettings s1.store := by
        unfold benignSettings at hb ⊢
        rw [hset]
        exact hb
      obtain ⟨s2, hrun⟩ := ih s1 hb1
      refine ⟨s2, ?_⟩
      simp only [runTicks, ht]
      exact hrun

/-- Witness for claim C5 (amended) at a concrete input: an idle auto-mode
system with object settings survives a tick. -/
theorem loop_keeps_ticking_on_benign_settings_witness :
    ∃ sys1, runTicks sysSeqDemo [clockDemo] = some sys1 :=
  loop_keeps_ticking_on_benign_settings sysSeqDemo [clockDemo]
    (Or.inr ⟨[("sequence", .vlist (List.replicate 8 (.vint 10)))], rfl, Or.inl rfl⟩)

end Arrosage
